import Mathlib

/-!
Shallow embedding of `src/sim_energy_system_cap.py`, a script simulating a
solar-charged capacitor energy system.

Python float arithmetic is modelled by exact real arithmetic.  The two
divisions on which the script can raise `ZeroDivisionError` (the division by
`voc` in `solar_current`, line 44, and the division `p_mode_w / node_v`,
line 104) and `math.sqrt` of a negative argument (line 51, `ValueError`) are
modelled as explicit error values.  The division by `c_f` inside
`node_discrim` and `node_voltage` is modelled with Lean's total real division
(the claims under study all concern configurations with `c_f > 0`, where the
two semantics agree).  The `while` loop (lines 103-129) is modelled with
explicit fuel: `none` means the fuel ran out before the loop finished.
-/

namespace SimCap

/-- Errors the script can raise while the simulation runs:
Python's `ZeroDivisionError`, and the `ValueError` that `math.sqrt`
raises on a negative argument. -/
inductive SimError where
  | divisionByZero
  | negativeSqrt
  deriving DecidableEq

/-- The ten positional command-line parameters, in the order they are parsed
on lines 67-76 of the script. -/
structure Config where
  sa_m2 : ℝ
  eff : ℝ
  voc : ℝ
  c_f : ℝ
  r_esr : ℝ
  q0_c : ℝ
  p_on_w : ℝ
  v_thresh : ℝ
  dt_s : ℝ
  dur_s : ℝ

noncomputable section

/-- Solar irradiance constant (line 39). -/
def irr_w_m2 : ℝ := 1366.1

/-- Function `solar_current` (lines 43-44).  Python raises
`ZeroDivisionError` when `voc == 0`. -/
def solar_current (irr sa_m2 eff voc : ℝ) : Except SimError ℝ :=
  if voc = 0 then .error .divisionByZero else .ok (irr * sa_m2 * eff / voc)

/-- Function `node_discrim` (lines 47-48). -/
def node_discrim (q_c c_f i_a esr_ohm power_w : ℝ) : ℝ :=
  (q_c / c_f + i_a * esr_ohm) ^ 2 - 4 * power_w * esr_ohm

/-- Function `node_voltage` (lines 50-51).  `math.sqrt` raises `ValueError`
on a negative argument. -/
def node_voltage (q_c c_f i_a esr_ohm disc : ℝ) : Except SimError ℝ :=
  if disc < 0 then .error .negativeSqrt
  else .ok ((q_c / c_f + i_a * esr_ohm + Real.sqrt disc) / 2)

/-- Python float division `a / b`: raises `ZeroDivisionError` when `b == 0`
(this models the bare division on line 104). -/
def pyDiv (a b : ℝ) : Except SimError ℝ :=
  if b = 0 then .error .divisionByZero else .ok (a / b)

/-- The mutable module-level state of the simulation loop
(`i1_a`, `qt_c`, `p_mode_w`, `node_v`, `t_s`, `log`; lines 85-94). -/
structure LoopState where
  i1_a : ℝ
  qt_c : ℝ
  p_mode_w : ℝ
  node_v : ℝ
  t_s : ℝ
  log : List (ℝ × ℝ)

/-- Initialization (lines 85-100), given the already-computed short-circuit
current `isc_a`: the initial solve (lines 92-93, with no negative-discriminant
retry), the time-0 sample (line 94), and then the source-disconnect and
load-cutoff rules (lines 96-100).  Note that the sample is recorded before
the rules run. -/
def initState (cfg : Config) (isc_a : ℝ) : Except SimError LoopState :=
  match node_voltage cfg.q0_c cfg.c_f isc_a cfg.r_esr
      (node_discrim cfg.q0_c cfg.c_f isc_a cfg.r_esr cfg.p_on_w) with
  | .error e => .error e
  | .ok node_v =>
      .ok ⟨if cfg.voc ≤ node_v ∧ isc_a ≠ 0 then 0 else isc_a,
           cfg.q0_c,
           if node_v < cfg.v_thresh then 0 else cfg.p_on_w,
           node_v, 0, [(0, node_v)]⟩

/-- Lines 114-118: the in-loop discriminant computation together with the
negative-discriminant retry.  Returns the (possibly zeroed) load power and
the discriminant that is actually fed to `node_voltage` on line 120. -/
def recoverDiscr (q_c c_f i_a esr_ohm power_w : ℝ) : ℝ × ℝ :=
  let d := node_discrim q_c c_f i_a esr_ohm power_w
  if d < 0 then (0, node_discrim q_c c_f i_a esr_ohm 0) else (power_w, d)

/-- One iteration of the `while` loop body (lines 104-129). -/
def stepOnce (cfg : Config) (isc_a : ℝ) (s : LoopState) : Except SimError LoopState :=
  match pyDiv s.p_mode_w s.node_v with
  | .error e => .error e
  | .ok i3_a =>
      let qt1 := s.qt_c + (s.i1_a - i3_a) * cfg.dt_s
      let qt_c := if qt1 < 0 then 0 else qt1
      let p1 := if s.p_mode_w = 0 ∧ cfg.voc ≤ s.node_v then cfg.p_on_w else s.p_mode_w
      let i1 := if 0 ≤ s.node_v ∧ s.node_v < cfg.voc then isc_a else 0
      let pd := recoverDiscr qt_c cfg.c_f i1 cfg.r_esr p1
      match node_voltage qt_c cfg.c_f i1 cfg.r_esr pd.2 with
      | .error e => .error e
      | .ok node_v =>
          .ok ⟨if cfg.voc ≤ node_v ∧ i1 ≠ 0 then 0 else i1,
               qt_c,
               if node_v < cfg.v_thresh then 0 else pd.1,
               node_v,
               s.t_s + cfg.dt_s,
               s.log ++ [(s.t_s, node_v)]⟩

/-- Time of the last recorded sample, `log[-1][0]` (line 103).  The log is
never empty during a run, so the default value is irrelevant. -/
def lastTime (s : LoopState) : ℝ := (s.log.getLastD (0, 0)).1

/-- The `while log[-1][0] < dur_s` loop (lines 103-129), with explicit fuel.
`none` means the fuel was exhausted before the loop finished. -/
def runLoop (cfg : Config) (isc_a : ℝ) : ℕ → LoopState → Option (Except SimError (List (ℝ × ℝ)))
  | 0, _ => none
  | n + 1, s =>
      if lastTime s < cfg.dur_s then
        match stepOnce cfg isc_a s with
        | .error e => some (.error e)
        | .ok s' => runLoop cfg isc_a n s'
      else some (.ok s.log)

/-- The whole simulation after argument parsing (lines 85-129): compute the
short-circuit current, initialize, and run the loop.  The result is the final
value of `log`, or the error that aborted the run. -/
def simulate (cfg : Config) (fuel : ℕ) : Option (Except SimError (List (ℝ × ℝ))) :=
  match solar_current irr_w_m2 cfg.sa_m2 cfg.eff cfg.voc with
  | .error e => some (.error e)
  | .ok isc_a =>
      match initState cfg isc_a with
      | .error e => some (.error e)
      | .ok s => runLoop cfg isc_a fuel s

/-- The value `solar_current` returns when `voc` is nonzero (line 85). -/
def iscVal (cfg : Config) : ℝ := irr_w_m2 * cfg.sa_m2 * cfg.eff / cfg.voc

/-- States of the loop variables as they stand right after the mode-switch
rules: the state produced by initialization (lines 85-100) and every state
produced by a completed loop iteration (lines 104-129).  These are exactly
the states from which the next loop iteration (if any) starts. -/
inductive Reaches (cfg : Config) (isc_a : ℝ) : LoopState → Prop where
  | init : ∀ {s}, initState cfg isc_a = .ok s → Reaches cfg isc_a s
  | step : ∀ {s t}, Reaches cfg isc_a s → stepOnce cfg isc_a s = .ok t → Reaches cfg isc_a t

/-- Observable behavior of the script's top-level argument check. -/
inductive MainBehavior where
  | usageExit (message : String) (exitCode : ℕ)
  | runSim
  deriving DecidableEq

/-- Usage string printed on lines 78-79 (the two adjacent string literals
concatenate). -/
def usageMessage : String :=
  "Usage: sim_energy_system_cap.py sa_m2 eff voc c_f r_esr q0_c p_on_w v_thresh dt_s dur_s"

/-- The argument-arity check (lines 66-80): with `len(sys.argv)` equal to 11
(script name plus ten parameters) the simulation runs; otherwise the usage
message is printed and `sys.exit()` is called with no argument, which makes
the Python process exit with status 0. -/
def mainDispatch (argc : ℕ) : MainBehavior :=
  if argc = 11 then .runSim else .usageExit usageMessage 0

/-! ### Concrete scenarios used to instantiate the theorems

Field order of `Config`: `sa_m2, eff, voc, c_f, r_esr, q0_c, p_on_w,
v_thresh, dt_s, dur_s`.  Field order of `LoopState`: `i1_a, qt_c, p_mode_w,
node_v, t_s, log`. -/

/-- Scenario A: short-circuit current 1 A (since `1366.1 * 1 * 1 / 1366.1 = 1`),
load off, charge 4 C; the capacitor charges by 1 C per step and every
discriminant is a perfect square. -/
def cfgA : Config := ⟨1, 1, 1366.1, 1, 1, 4, 0, 0, 1, 2⟩

/-- State of scenario A after initialization. -/
def sA0 : LoopState := ⟨1, 4, 0, 5, 0, [(0, 5)]⟩

/-- State of scenario A after one loop iteration. -/
def sA1 : LoopState := ⟨1, 5, 0, 6, 1, [(0, 5), (0, 6)]⟩

/-- State of scenario A after two loop iterations. -/
def sA2 : LoopState := ⟨1, 6, 0, 7, 2, [(0, 5), (0, 6), (1, 7)]⟩

/-- State of scenario A after three loop iterations. -/
def sA3 : LoopState := ⟨1, 7, 0, 8, 3, [(0, 5), (0, 6), (1, 7), (2, 8)]⟩

/-- Scenario B: zero initial charge with load power 1 W; the discriminant of
the initial solve is `(0 + 1)^2 - 4 = -3 < 0`. -/
def cfgB : Config := ⟨1, 1, 1366.1, 1, 1, 0, 1, 0, 1, 1⟩

/-- Scenario C: zero solar input (`eff = 0`), initial charge 5 C, load power
9/4 W, time step 20 s.  The first iteration discharges the capacitor to zero
charge and the retried solve yields node voltage 0; the second iteration
divides by zero. -/
def cfgC : Config := ⟨1, 0, 1, 1, 1, 5, 9/4, 0, 20, 10⟩

/-- State of scenario C after initialization: discriminant 16, voltage 9/2. -/
def sC0 : LoopState := ⟨0, 5, 9/4, 9/2, 0, [(0, 9/2)]⟩

/-- State of scenario C after one loop iteration: charge clamped to 0, retried
discriminant 0, node voltage 0. -/
def sC1 : LoopState := ⟨0, 0, 0, 0, 20, [(0, 9/2), (0, 0)]⟩

/-- Scenario D: scenario C with duration 15 s instead of 10 s. -/
def cfgD : Config := ⟨1, 0, 1, 1, 1, 5, 9/4, 0, 20, 15⟩

/-- Scenario E: zero initial charge and zero load power, duration 0; the trace
is the single sample `(0, 1)`. -/
def cfgE : Config := ⟨1, 1, 1366.1, 1, 1, 0, 0, 0, 1, 0⟩

/-- State of scenario E after initialization. -/
def sE0 : LoopState := ⟨1, 0, 0, 1, 0, [(0, 1)]⟩

/-- Scenario E with the rule thresholds moved so that both mode-switch rules
fire at initialization: `voc = 1/2 ≤ 1 = node voltage < 100 = v_thresh`. -/
def cfgE2 : Config := ⟨1, 1, 1/2, 1, 1, 0, 0, 100, 1, 0⟩

/-- State of scenario E2 after initialization (with short-circuit current 1
supplied directly): both rules fired, yet the recorded sample is the same. -/
def sE2 : LoopState := ⟨0, 0, 0, 1, 0, [(0, 1)]⟩

/-- Scenario F: zero open-circuit voltage. -/
def cfgF : Config := ⟨1, 1, 0, 1, 1, 0, 1, 3, 1, 5⟩

end

end SimCap

namespace SimCap

/-! ### Basic lemmas about the embedded functions -/

lemma recoverDiscr_eq (q c i r p : ℝ) :
    recoverDiscr q c i r p =
      if node_discrim q c i r p < 0 then (0, node_discrim q c i r 0)
      else (p, node_discrim q c i r p) := rfl

lemma recoverDiscr_snd_nonneg (q c i r p : ℝ) : 0 ≤ (recoverDiscr q c i r p).2 := by
  rw [recoverDiscr_eq]
  by_cases hd : node_discrim q c i r p < 0
  · rw [if_pos hd]
    have h2 : node_discrim q c i r 0 = (q / c + i * r) ^ 2 := by
      unfold node_discrim; ring
    simpa [h2] using sq_nonneg (q / c + i * r)
  · rw [if_neg hd]
    exact not_lt.mp hd

lemma node_voltage_ok_iff {q c i r d v : ℝ} :
    node_voltage q c i r d = .ok v ↔ 0 ≤ d ∧ (q / c + i * r + Real.sqrt d) / 2 = v := by
  unfold node_voltage
  by_cases hd : d < 0
  · rw [if_pos hd]
    simp [not_le.mpr hd]
  · rw [if_neg hd]
    simp [not_lt.mp hd]

lemma node_voltage_nonneg {q c i r d v : ℝ} (hq : 0 ≤ q) (hc : 0 ≤ c) (hi : 0 ≤ i)
    (hr : 0 ≤ r) (h : node_voltage q c i r d = .ok v) : 0 ≤ v := by
  obtain ⟨hd, hv⟩ := node_voltage_ok_iff.mp h
  have h1 : 0 ≤ q / c := div_nonneg hq hc
  have h2 : 0 ≤ i * r := mul_nonneg hi hr
  have h3 : 0 ≤ Real.sqrt d := Real.sqrt_nonneg d
  linarith

lemma sqrt_eval {x y : ℝ} (hy : 0 ≤ y) (h : y ^ 2 = x) : Real.sqrt x = y := by
  rw [← h]; exact Real.sqrt_sq hy

/-! ### Inversion lemmas for initialization and the loop body -/

lemma initState_ok_fields {cfg : Config} {isc_a : ℝ} {s : LoopState}
    (h : initState cfg isc_a = .ok s) :
    node_voltage cfg.q0_c cfg.c_f isc_a cfg.r_esr
        (node_discrim cfg.q0_c cfg.c_f isc_a cfg.r_esr cfg.p_on_w) = .ok s.node_v ∧
    s.i1_a = (if cfg.voc ≤ s.node_v ∧ isc_a ≠ 0 then 0 else isc_a) ∧
    s.qt_c = cfg.q0_c ∧
    s.p_mode_w = (if s.node_v < cfg.v_thresh then 0 else cfg.p_on_w) ∧
    s.t_s = 0 ∧ s.log = [(0, s.node_v)] := by
  unfold initState at h
  split at h
  · exact absurd h (by simp)
  next node_v hnv =>
    injection h with h2
    subst h2
    exact ⟨hnv, rfl, rfl, rfl, rfl, rfl⟩

lemma stepOnce_ok_fields {cfg : Config} {isc_a : ℝ} {s t : LoopState}
    (h : stepOnce cfg isc_a s = .ok t) :
    ∃ qt_c p2 i1 d : ℝ,
      (i1 = isc_a ∨ i1 = 0) ∧
      (p2 = (if s.p_mode_w = 0 ∧ cfg.voc ≤ s.node_v then cfg.p_on_w else s.p_mode_w) ∨ p2 = 0) ∧
      0 ≤ qt_c ∧ 0 ≤ d ∧
      node_voltage qt_c cfg.c_f i1 cfg.r_esr d = .ok t.node_v ∧
      t.i1_a = (if cfg.voc ≤ t.node_v ∧ i1 ≠ 0 then 0 else i1) ∧
      t.qt_c = qt_c ∧
      t.p_mode_w = (if t.node_v < cfg.v_thresh then 0 else p2) ∧
      t.t_s = s.t_s + cfg.dt_s ∧
      t.log = s.log ++ [(s.t_s, t.node_v)] := by
  unfold stepOnce at h
  split at h
  · exact absurd h (by simp)
  next i3_a hdiv =>
    dsimp only at h
    split at h
    · exact absurd h (by simp)
    next node_v hnv =>
      set A := s.qt_c + (s.i1_a - i3_a) * cfg.dt_s with hA
      set qt := if A < 0 then 0 else A with hqt
      set p1 := if s.p_mode_w = 0 ∧ cfg.voc ≤ s.node_v then cfg.p_on_w else s.p_mode_w with hp1
      set i1 := if 0 ≤ s.node_v ∧ s.node_v < cfg.voc then isc_a else 0 with hi1
      injection h with h2
      subst h2
      refine ⟨qt, (recoverDiscr qt cfg.c_f i1 cfg.r_esr p1).1, i1,
              (recoverDiscr qt cfg.c_f i1 cfg.r_esr p1).2, ?_, ?_, ?_, ?_, ?_, ?_, ?_, ?_, ?_, ?_⟩
      · rw [hi1]
        by_cases hc : 0 ≤ s.node_v ∧ s.node_v < cfg.voc
        · rw [if_pos hc]; exact Or.inl rfl
        · rw [if_neg hc]; exact Or.inr rfl
      · rw [recoverDiscr_eq]
        by_cases hc : node_discrim qt cfg.c_f i1 cfg.r_esr p1 < 0
        · rw [if_pos hc]; exact Or.inr rfl
        · rw [if_neg hc]; exact Or.inl rfl
      · rw [hqt]
        by_cases hc : A < 0
        · rw [if_pos hc]
        · rw [if_neg hc]; exact not_lt.mp hc
      · exact recoverDiscr_snd_nonneg qt cfg.c_f i1 cfg.r_esr p1
      · exact hnv
      · rfl
      · rfl
      · rfl
      · rfl
      · rfl

lemma lastTime_step {cfg : Config} {isc_a : ℝ} {s t : LoopState}
    (h : stepOnce cfg isc_a s = .ok t) : lastTime t = s.t_s := by
  obtain ⟨qt, p2, i1, d, _, _, _, _, _, _, _, _, _, hlog⟩ := stepOnce_ok_fields h
  rw [lastTime, hlog, List.getLastD_concat]

/-! ### Unfolding lemmas for the run loop -/

lemma runLoop_zero (cfg : Config) (isc_a : ℝ) (s : LoopState) :
    runLoop cfg isc_a 0 s = none := rfl

lemma runLoop_succ (cfg : Config) (isc_a : ℝ) (n : ℕ) (s : LoopState) :
    runLoop cfg isc_a (n + 1) s =
      if lastTime s < cfg.dur_s then
        match stepOnce cfg isc_a s with
        | .error e => some (.error e)
        | .ok u => runLoop cfg isc_a n u
      else some (.ok s.log) := rfl

lemma runLoop_stop {cfg : Config} {isc_a : ℝ} {n : ℕ} {s : LoopState}
    (h : ¬ lastTime s < cfg.dur_s) :
    runLoop cfg isc_a (n + 1) s = some (.ok s.log) := by
  rw [runLoop_succ, if_neg h]

lemma runLoop_go {cfg : Config} {isc_a : ℝ} {n : ℕ} {s t : LoopState}
    (hlt : lastTime s < cfg.dur_s) (hst : stepOnce cfg isc_a s = .ok t) :
    runLoop cfg isc_a (n + 1) s = runLoop cfg isc_a n t := by
  rw [runLoop_succ, if_pos hlt, hst]

lemma runLoop_abort {cfg : Config} {isc_a : ℝ} {n : ℕ} {s : LoopState} {e : SimError}
    (hlt : lastTime s < cfg.dur_s) (hst : stepOnce cfg isc_a s = .error e) :
    runLoop cfg isc_a (n + 1) s = some (.error e) := by
  rw [runLoop_succ, if_pos hlt, hst]

lemma simulate_eq_runLoop {cfg : Config} {isc_a : ℝ} {s : LoopState} {fuel : ℕ}
    (hisc : solar_current irr_w_m2 cfg.sa_m2 cfg.eff cfg.voc = .ok isc_a)
    (hinit : initState cfg isc_a = .ok s) :
    simulate cfg fuel = runLoop cfg isc_a fuel s := by
  unfold simulate
  simp only [hisc, hinit]

lemma simulate_ok_elim {cfg : Config} {fuel : ℕ} {tr : List (ℝ × ℝ)}
    (h : simulate cfg fuel = some (.ok tr)) :
    ∃ isc_a s, solar_current irr_w_m2 cfg.sa_m2 cfg.eff cfg.voc = .ok isc_a ∧
      initState cfg isc_a = .ok s ∧ runLoop cfg isc_a fuel s = some (.ok tr) := by
  unfold simulate at h
  split at h
  · exact absurd h (by simp)
  next isc_a hisc =>
    split at h
    · exact absurd h (by simp)
    next s hinit => exact ⟨isc_a, s, hisc, hinit, h⟩

end SimCap

namespace SimCap

/-! ### Evaluation of the loop body on fully concrete data -/

lemma stepOnce_eval {cfg : Config} {isc_a : ℝ} {s : LoopState}
    {i3_a qt1 qt p1 i1 p2 d v : ℝ}
    (hv0 : s.node_v ≠ 0)
    (hi3 : s.p_mode_w / s.node_v = i3_a)
    (hqt1 : s.qt_c + (s.i1_a - i3_a) * cfg.dt_s = qt1)
    (hqt : (if qt1 < 0 then 0 else qt1) = qt)
    (hp1 : (if s.p_mode_w = 0 ∧ cfg.voc ≤ s.node_v then cfg.p_on_w else s.p_mode_w) = p1)
    (hi1 : (if 0 ≤ s.node_v ∧ s.node_v < cfg.voc then isc_a else 0) = i1)
    (hpd : recoverDiscr qt cfg.c_f i1 cfg.r_esr p1 = (p2, d))
    (hnv : node_voltage qt cfg.c_f i1 cfg.r_esr d = .ok v) :
    stepOnce cfg isc_a s =
      .ok ⟨if cfg.voc ≤ v ∧ i1 ≠ 0 then 0 else i1, qt,
           if v < cfg.v_thresh then 0 else p2, v,
           s.t_s + cfg.dt_s, s.log ++ [(s.t_s, v)]⟩ := by
  have hdiv : pyDiv s.p_mode_w s.node_v = .ok i3_a := by
    rw [pyDiv, if_neg hv0, hi3]
  unfold stepOnce
  rw [hdiv]
  dsimp only
  rw [hqt1, hqt, hp1, hi1, hpd]
  dsimp only
  rw [hnv]

lemma stepOnce_div_zero {cfg : Config} {isc_a : ℝ} {s : LoopState}
    (hv0 : s.node_v = 0) : stepOnce cfg isc_a s = .error .divisionByZero := by
  have hdiv : pyDiv s.p_mode_w s.node_v = .error .divisionByZero := by
    rw [pyDiv, if_pos hv0]
  unfold stepOnce
  rw [hdiv]

/-! ### Scenario A evaluated -/

lemma cfgA_isc : solar_current irr_w_m2 cfgA.sa_m2 cfgA.eff cfgA.voc = .ok 1 := by
  rw [solar_current, if_neg (by norm_num [cfgA])]
  norm_num [cfgA, irr_w_m2]

lemma cfgA_init : initState cfgA 1 = .ok sA0 := by
  have hd : node_discrim cfgA.q0_c cfgA.c_f 1 cfgA.r_esr cfgA.p_on_w = 25 := by
    norm_num [node_discrim, cfgA]
  have hv : node_voltage cfgA.q0_c cfgA.c_f 1 cfgA.r_esr 25 = .ok 5 := by
    rw [node_voltage, if_neg (by norm_num)]
    rw [sqrt_eval (by norm_num : (0:ℝ) ≤ 5) (by norm_num)]
    norm_num [cfgA]
  unfold initState
  rw [hd, hv]
  dsimp only
  rw [if_neg (by norm_num [cfgA]), if_neg (by norm_num [cfgA])]
  norm_num [cfgA, sA0]

lemma cfgA_step0 : stepOnce cfgA 1 sA0 = .ok sA1 := by
  have hpd : recoverDiscr 5 cfgA.c_f 1 cfgA.r_esr 0 = (0, 36) := by
    rw [recoverDiscr_eq, if_neg (by norm_num [node_discrim, cfgA])]
    norm_num [node_discrim, cfgA]
  have hnv : node_voltage 5 cfgA.c_f 1 cfgA.r_esr 36 = .ok 6 := by
    rw [node_voltage, if_neg (by norm_num)]
    rw [sqrt_eval (by norm_num : (0:ℝ) ≤ 6) (by norm_num)]
    norm_num [cfgA]
  have h := stepOnce_eval (show sA0.node_v ≠ 0 by norm_num [sA0])
    (show sA0.p_mode_w / sA0.node_v = 0 by norm_num [sA0])
    (show sA0.qt_c + (sA0.i1_a - 0) * cfgA.dt_s = 5 by norm_num [sA0, cfgA])
    (show (if (5:ℝ) < 0 then 0 else 5) = 5 by norm_num)
    (show (if sA0.p_mode_w = 0 ∧ cfgA.voc ≤ sA0.node_v then cfgA.p_on_w else sA0.p_mode_w) = 0 by
      norm_num [sA0, cfgA])
    (show (if 0 ≤ sA0.node_v ∧ sA0.node_v < cfgA.voc then (1:ℝ) else 0) = 1 by
      norm_num [sA0, cfgA])
    hpd hnv
  rw [h]
  norm_num [sA0, sA1, cfgA]

lemma cfgA_step1 : stepOnce cfgA 1 sA1 = .ok sA2 := by
  have hpd : recoverDiscr 6 cfgA.c_f 1 cfgA.r_esr 0 = (0, 49) := by
    rw [recoverDiscr_eq, if_neg (by norm_num [node_discrim, cfgA])]
    norm_num [node_discrim, cfgA]
  have hnv : node_voltage 6 cfgA.c_f 1 cfgA.r_esr 49 = .ok 7 := by
    rw [node_voltage, if_neg (by norm_num)]
    rw [sqrt_eval (by norm_num : (0:ℝ) ≤ 7) (by norm_num)]
    norm_num [cfgA]
  have h := stepOnce_eval (show sA1.node_v ≠ 0 by norm_num [sA1])
    (show sA1.p_mode_w / sA1.node_v = 0 by norm_num [sA1])
    (show sA1.qt_c + (sA1.i1_a - 0) * cfgA.dt_s = 6 by norm_num [sA1, cfgA])
    (show (if (6:ℝ) < 0 then 0 else 6) = 6 by norm_num)
    (show (if sA1.p_mode_w = 0 ∧ cfgA.voc ≤ sA1.node_v then cfgA.p_on_w else sA1.p_mode_w) = 0 by
      norm_num [sA1, cfgA])
    (show (if 0 ≤ sA1.node_v ∧ sA1.node_v < cfgA.voc then (1:ℝ) else 0) = 1 by
      norm_num [sA1, cfgA])
    hpd hnv
  rw [h]
  norm_num [sA1, sA2, cfgA]

lemma cfgA_step2 : stepOnce cfgA 1 sA2 = .ok sA3 := by
  have hpd : recoverDiscr 7 cfgA.c_f 1 cfgA.r_esr 0 = (0, 64) := by
    rw [recoverDiscr_eq, if_neg (by norm_num [node_discrim, cfgA])]
    norm_num [node_discrim, cfgA]
  have hnv : node_voltage 7 cfgA.c_f 1 cfgA.r_esr 64 = .ok 8 := by
    rw [node_voltage, if_neg (by norm_num)]
    rw [sqrt_eval (by norm_num : (0:ℝ) ≤ 8) (by norm_num)]
    norm_num [cfgA]
  have h := stepOnce_eval (show sA2.node_v ≠ 0 by norm_num [sA2])
    (show sA2.p_mode_w / sA2.node_v = 0 by norm_num [sA2])
    (show sA2.qt_c + (sA2.i1_a - 0) * cfgA.dt_s = 7 by norm_num [sA2, cfgA])
    (show (if (7:ℝ) < 0 then 0 else 7) = 7 by norm_num)
    (show (if sA2.p_mode_w = 0 ∧ cfgA.voc ≤ sA2.node_v then cfgA.p_on_w else sA2.p_mode_w) = 0 by
      norm_num [sA2, cfgA])
    (show (if 0 ≤ sA2.node_v ∧ sA2.node_v < cfgA.voc then (1:ℝ) else 0) = 1 by
      norm_num [sA2, cfgA])
    hpd hnv
  rw [h]
  norm_num [sA2, sA3, cfgA]

lemma lastA0 : lastTime sA0 = 0 := rfl

lemma lastA1 : lastTime sA1 = 0 := rfl

lemma lastA2 : lastTime sA2 = 1 := rfl

lemma lastA3 : lastTime sA3 = 2 := rfl

lemma cfgA_loop : runLoop cfgA 1 4 sA0 = some (.ok [(0, 5), (0, 6), (1, 7), (2, 8)]) := by
  have e0 : runLoop cfgA 1 (3 + 1) sA0 = runLoop cfgA 1 3 sA1 :=
    runLoop_go (by rw [lastA0]; norm_num [cfgA]) cfgA_step0
  have e1 : runLoop cfgA 1 (2 + 1) sA1 = runLoop cfgA 1 2 sA2 :=
    runLoop_go (by rw [lastA1]; norm_num [cfgA]) cfgA_step1
  have e2 : runLoop cfgA 1 (1 + 1) sA2 = runLoop cfgA 1 1 sA3 :=
    runLoop_go (by rw [lastA2]; norm_num [cfgA]) cfgA_step2
  have e3 : runLoop cfgA 1 (0 + 1) sA3 = some (.ok sA3.log) :=
    runLoop_stop (by rw [lastA3]; norm_num [cfgA])
  calc runLoop cfgA 1 4 sA0 = runLoop cfgA 1 3 sA1 := e0
    _ = runLoop cfgA 1 2 sA2 := e1
    _ = runLoop cfgA 1 1 sA3 := e2
    _ = some (.ok sA3.log) := e3
    _ = some (.ok [(0, 5), (0, 6), (1, 7), (2, 8)]) := by norm_num [sA3]

lemma cfgA_run : simulate cfgA 4 = some (.ok [(0, 5), (0, 6), (1, 7), (2, 8)]) := by
  rw [simulate_eq_runLoop cfgA_isc cfgA_init]
  exact cfgA_loop

end SimCap

namespace SimCap

/-! ### Scenario B evaluated: the initial solve has a negative discriminant -/

lemma cfgB_isc : solar_current irr_w_m2 cfgB.sa_m2 cfgB.eff cfgB.voc = .ok 1 := by
  rw [solar_current, if_neg (by norm_num [cfgB])]
  norm_num [cfgB, irr_w_m2]

lemma cfgB_discr : node_discrim cfgB.q0_c cfgB.c_f 1 cfgB.r_esr cfgB.p_on_w = -3 := by
  norm_num [node_discrim, cfgB]

lemma cfgB_init_err : initState cfgB 1 = .error .negativeSqrt := by
  unfold initState
  rw [cfgB_discr, node_voltage, if_pos (by norm_num : (-3 : ℝ) < 0)]

lemma cfgB_run : simulate cfgB 1 = some (.error .negativeSqrt) := by
  unfold simulate
  rw [cfgB_isc]
  dsimp only
  rw [cfgB_init_err]

/-! ### Scenario C evaluated: discharge to zero voltage, then division by zero -/

lemma cfgC_isc : solar_current irr_w_m2 cfgC.sa_m2 cfgC.eff cfgC.voc = .ok 0 := by
  rw [solar_current, if_neg (by norm_num [cfgC])]
  norm_num [cfgC, irr_w_m2]

lemma cfgC_init : initState cfgC 0 = .ok sC0 := by
  have hd : node_discrim cfgC.q0_c cfgC.c_f 0 cfgC.r_esr cfgC.p_on_w = 16 := by
    norm_num [node_discrim, cfgC]
  have hv : node_voltage cfgC.q0_c cfgC.c_f 0 cfgC.r_esr 16 = .ok (9 / 2) := by
    rw [node_voltage, if_neg (by norm_num)]
    rw [sqrt_eval (by norm_num : (0 : ℝ) ≤ 4) (by norm_num)]
    norm_num [cfgC]
  unfold initState
  rw [hd, hv]
  dsimp only
  rw [if_neg (by norm_num [cfgC]), if_neg (by norm_num [cfgC])]
  norm_num [cfgC, sC0]

lemma cfgC_step0 : stepOnce cfgC 0 sC0 = .ok sC1 := by
  have hpd : recoverDiscr 0 cfgC.c_f 0 cfgC.r_esr (9 / 4) = (0, 0) := by
    rw [recoverDiscr_eq, if_pos (by norm_num [node_discrim, cfgC])]
    norm_num [node_discrim, cfgC]
  have hnv : node_voltage 0 cfgC.c_f 0 cfgC.r_esr 0 = .ok 0 := by
    rw [node_voltage, if_neg (by norm_num)]
    norm_num [cfgC, Real.sqrt_zero]
  have h := stepOnce_eval (show sC0.node_v ≠ 0 by norm_num [sC0])
    (show sC0.p_mode_w / sC0.node_v = 1 / 2 by norm_num [sC0])
    (show sC0.qt_c + (sC0.i1_a - 1 / 2) * cfgC.dt_s = -5 by norm_num [sC0, cfgC])
    (show (if (-5 : ℝ) < 0 then 0 else -5) = 0 by norm_num)
    (show (if sC0.p_mode_w = 0 ∧ cfgC.voc ≤ sC0.node_v then cfgC.p_on_w else sC0.p_mode_w) = 9 / 4 by
      norm_num [sC0, cfgC])
    (show (if 0 ≤ sC0.node_v ∧ sC0.node_v < cfgC.voc then (0 : ℝ) else 0) = 0 by
      norm_num [sC0, cfgC])
    hpd hnv
  rw [h]
  norm_num [sC0, sC1, cfgC]

lemma cfgC_step1 : stepOnce cfgC 0 sC1 = .error .divisionByZero :=
  stepOnce_div_zero (by norm_num [sC1])

lemma lastC0 : lastTime sC0 = 0 := rfl

lemma lastC1 : lastTime sC1 = 0 := rfl

lemma cfgC_loop : runLoop cfgC 0 2 sC0 = some (.error .divisionByZero) := by
  have e0 : runLoop cfgC 0 (1 + 1) sC0 = runLoop cfgC 0 1 sC1 :=
    runLoop_go (by rw [lastC0]; norm_num [cfgC]) cfgC_step0
  have e1 : runLoop cfgC 0 (0 + 1) sC1 = some (.error .divisionByZero) :=
    runLoop_abort (by rw [lastC1]; norm_num [cfgC]) cfgC_step1
  calc runLoop cfgC 0 2 sC0 = runLoop cfgC 0 1 sC1 := e0
    _ = some (.error .divisionByZero) := e1

lemma cfgC_run : simulate cfgC 2 = some (.error .divisionByZero) := by
  rw [simulate_eq_runLoop cfgC_isc cfgC_init]
  exact cfgC_loop

/-! ### Scenario D evaluated (scenario C with duration 15) -/

lemma cfgD_isc : solar_current irr_w_m2 cfgD.sa_m2 cfgD.eff cfgD.voc = .ok 0 := by
  rw [solar_current, if_neg (by norm_num [cfgD])]
  norm_num [cfgD, irr_w_m2]

lemma cfgD_init : initState cfgD 0 = .ok sC0 := by
  have hd : node_discrim cfgD.q0_c cfgD.c_f 0 cfgD.r_esr cfgD.p_on_w = 16 := by
    norm_num [node_discrim, cfgD]
  have hv : node_voltage cfgD.q0_c cfgD.c_f 0 cfgD.r_esr 16 = .ok (9 / 2) := by
    rw [node_voltage, if_neg (by norm_num)]
    rw [sqrt_eval (by norm_num : (0 : ℝ) ≤ 4) (by norm_num)]
    norm_num [cfgD]
  unfold initState
  rw [hd, hv]
  dsimp only
  rw [if_neg (by norm_num [cfgD]), if_neg (by norm_num [cfgD])]
  norm_num [cfgD, sC0]

lemma cfgD_step0 : stepOnce cfgD 0 sC0 = .ok sC1 := by
  have hpd : recoverDiscr 0 cfgD.c_f 0 cfgD.r_esr (9 / 4) = (0, 0) := by
    rw [recoverDiscr_eq, if_pos (by norm_num [node_discrim, cfgD])]
    norm_num [node_discrim, cfgD]
  have hnv : node_voltage 0 cfgD.c_f 0 cfgD.r_esr 0 = .ok 0 := by
    rw [node_voltage, if_neg (by norm_num)]
    norm_num [cfgD, Real.sqrt_zero]
  have h := stepOnce_eval (show sC0.node_v ≠ 0 by norm_num [sC0])
    (show sC0.p_mode_w / sC0.node_v = 1 / 2 by norm_num [sC0])
    (show sC0.qt_c + (sC0.i1_a - 1 / 2) * cfgD.dt_s = -5 by norm_num [sC0, cfgD])
    (show (if (-5 : ℝ) < 0 then 0 else -5) = 0 by norm_num)
    (show (if sC0.p_mode_w = 0 ∧ cfgD.voc ≤ sC0.node_v then cfgD.p_on_w else sC0.p_mode_w) = 9 / 4 by
      norm_num [sC0, cfgD])
    (show (if 0 ≤ sC0.node_v ∧ sC0.node_v < cfgD.voc then (0 : ℝ) else 0) = 0 by
      norm_num [sC0, cfgD])
    hpd hnv
  rw [h]
  norm_num [sC0, sC1, cfgD]

lemma cfgD_step1 : stepOnce cfgD 0 sC1 = .error .divisionByZero :=
  stepOnce_div_zero (by norm_num [sC1])

lemma cfgD_loop : runLoop cfgD 0 2 sC0 = some (.error .divisionByZero) := by
  have e0 : runLoop cfgD 0 (1 + 1) sC0 = runLoop cfgD 0 1 sC1 :=
    runLoop_go (by rw [lastC0]; norm_num [cfgD]) cfgD_step0
  have e1 : runLoop cfgD 0 (0 + 1) sC1 = some (.error .divisionByZero) :=
    runLoop_abort (by rw [lastC1]; norm_num [cfgD]) cfgD_step1
  calc runLoop cfgD 0 2 sC0 = runLoop cfgD 0 1 sC1 := e0
    _ = some (.error .divisionByZero) := e1

lemma cfgD_run : simulate cfgD 2 = some (.error .divisionByZero) := by
  rw [simulate_eq_runLoop cfgD_isc cfgD_init]
  exact cfgD_loop

/-! ### Scenarios E and E2 evaluated -/

lemma cfgE_isc : solar_current irr_w_m2 cfgE.sa_m2 cfgE.eff cfgE.voc = .ok 1 := by
  rw [solar_current, if_neg (by norm_num [cfgE])]
  norm_num [cfgE, irr_w_m2]

lemma cfgE_iscVal : iscVal cfgE = 1 := by
  norm_num [iscVal, cfgE, irr_w_m2]

lemma cfgE_init : initState cfgE 1 = .ok sE0 := by
  have hd : node_discrim cfgE.q0_c cfgE.c_f 1 cfgE.r_esr cfgE.p_on_w = 1 := by
    norm_num [node_discrim, cfgE]
  have hv : node_voltage cfgE.q0_c cfgE.c_f 1 cfgE.r_esr 1 = .ok 1 := by
    rw [node_voltage, if_neg (by norm_num)]
    norm_num [cfgE, Real.sqrt_one]
  unfold initState
  rw [hd, hv]
  dsimp only
  rw [if_neg (by norm_num [cfgE]), if_neg (by norm_num [cfgE])]
  norm_num [cfgE, sE0]

lemma lastE0 : lastTime sE0 = 0 := rfl

lemma cfgE_loop : runLoop cfgE 1 1 sE0 = some (.ok [(0, 1)]) := by
  have e0 : runLoop cfgE 1 (0 + 1) sE0 = some (.ok sE0.log) :=
    runLoop_stop (by rw [lastE0]; norm_num [cfgE])
  calc runLoop cfgE 1 1 sE0 = some (.ok sE0.log) := e0
    _ = some (.ok [(0, 1)]) := by norm_num [sE0]

lemma cfgE_run : simulate cfgE 1 = some (.ok [(0, 1)]) := by
  rw [simulate_eq_runLoop cfgE_isc cfgE_init]
  exact cfgE_loop

lemma cfgE2_init : initState cfgE2 1 = .ok sE2 := by
  have hd : node_discrim cfgE2.q0_c cfgE2.c_f 1 cfgE2.r_esr cfgE2.p_on_w = 1 := by
    norm_num [node_discrim, cfgE2]
  have hv : node_voltage cfgE2.q0_c cfgE2.c_f 1 cfgE2.r_esr 1 = .ok 1 := by
    rw [node_voltage, if_neg (by norm_num)]
    norm_num [cfgE2, Real.sqrt_one]
  unfold initState
  rw [hd, hv]
  dsimp only
  rw [if_pos (by norm_num [cfgE2] : cfgE2.voc ≤ (1 : ℝ) ∧ (1 : ℝ) ≠ 0),
      if_pos (by norm_num [cfgE2] : (1 : ℝ) < cfgE2.v_thresh)]
  norm_num [cfgE2, sE2]

end SimCap

namespace SimCap

/-! ### Invariants along the reachable loop states -/

lemma init_invariants {cfg : Config} {isc_a : ℝ} {s : LoopState}
    (hinit : initState cfg isc_a = .ok s) :
    (cfg.voc ≤ s.node_v → s.i1_a = 0) ∧
    (s.node_v < cfg.v_thresh → s.p_mode_w = 0) ∧
    (s.i1_a = isc_a ∨ s.i1_a = 0) ∧
    (s.p_mode_w = cfg.p_on_w ∨ s.p_mode_w = 0) := by
  obtain ⟨_, hi, _, hp, _, _⟩ := initState_ok_fields hinit
  refine ⟨?_, ?_, ?_, ?_⟩
  · intro hv
    rw [hi]
    by_cases hz : isc_a = 0
    · rw [hz]; split <;> rfl
    · rw [if_pos ⟨hv, hz⟩]
  · intro hv
    rw [hp, if_pos hv]
  · rw [hi]
    by_cases hc : cfg.voc ≤ s.node_v ∧ isc_a ≠ 0
    · rw [if_pos hc]; exact Or.inr rfl
    · rw [if_neg hc]; exact Or.inl rfl
  · rw [hp]
    by_cases hc : s.node_v < cfg.v_thresh
    · rw [if_pos hc]; exact Or.inr rfl
    · rw [if_neg hc]; exact Or.inl rfl

lemma step_preserves_invariants {cfg : Config} {isc_a : ℝ} {s t : LoopState}
    (hprev : s.p_mode_w = cfg.p_on_w ∨ s.p_mode_w = 0)
    (hst : stepOnce cfg isc_a s = .ok t) :
    (cfg.voc ≤ t.node_v → t.i1_a = 0) ∧
    (t.node_v < cfg.v_thresh → t.p_mode_w = 0) ∧
    (t.i1_a = isc_a ∨ t.i1_a = 0) ∧
    (t.p_mode_w = cfg.p_on_w ∨ t.p_mode_w = 0) := by
  obtain ⟨qt, p2, i1, d, hi1mem, hp2, _, _, _, hi, _, hp, _, _⟩ := stepOnce_ok_fields hst
  refine ⟨?_, ?_, ?_, ?_⟩
  · intro hv
    rw [hi]
    by_cases hz : i1 = 0
    · rw [hz]; split <;> rfl
    · rw [if_pos ⟨hv, hz⟩]
  · intro hv
    rw [hp, if_pos hv]
  · rw [hi]
    by_cases hc : cfg.voc ≤ t.node_v ∧ i1 ≠ 0
    · rw [if_pos hc]; exact Or.inr rfl
    · rw [if_neg hc]
      rcases hi1mem with h1 | h1
      · exact Or.inl h1
      · exact Or.inr h1
  · rw [hp]
    by_cases hc : t.node_v < cfg.v_thresh
    · rw [if_pos hc]; exact Or.inr rfl
    · rw [if_neg hc]
      rcases hp2 with h1 | h1
      · rw [h1]
        by_cases hc2 : s.p_mode_w = 0 ∧ cfg.voc ≤ s.node_v
        · rw [if_pos hc2]; exact Or.inl rfl
        · rw [if_neg hc2]; exact hprev
      · exact Or.inr h1

lemma reaches_invariants {cfg : Config} {isc_a : ℝ} {s : LoopState}
    (h : Reaches cfg isc_a s) :
    (cfg.voc ≤ s.node_v → s.i1_a = 0) ∧
    (s.node_v < cfg.v_thresh → s.p_mode_w = 0) ∧
    (s.i1_a = isc_a ∨ s.i1_a = 0) ∧
    (s.p_mode_w = cfg.p_on_w ∨ s.p_mode_w = 0) := by
  induction h with
  | init hinit => exact init_invariants hinit
  | step hr hst ih => exact step_preserves_invariants ih.2.2.2 hst

lemma reaches_charge_nonneg {cfg : Config} {isc_a : ℝ} {s : LoopState}
    (hq0 : 0 ≤ cfg.q0_c) (h : Reaches cfg isc_a s) : 0 ≤ s.qt_c := by
  induction h with
  | init hinit =>
    obtain ⟨_, _, hq, _, _, _⟩ := initState_ok_fields hinit
    rw [hq]; exact hq0
  | step hr hst ih =>
    obtain ⟨qt, p2, i1, d, _, _, hqt0, _, _, _, hqtc, _, _, _⟩ := stepOnce_ok_fields hst
    rw [hqtc]; exact hqt0

lemma iscVal_nonneg {cfg : Config} (hsa : 0 ≤ cfg.sa_m2) (heff : 0 ≤ cfg.eff)
    (hvoc : 0 ≤ cfg.voc) : 0 ≤ iscVal cfg := by
  unfold iscVal irr_w_m2
  have h1 : (0 : ℝ) ≤ 1366.1 := by norm_num
  exact div_nonneg (mul_nonneg (mul_nonneg h1 hsa) heff) hvoc

lemma reaches_node_v_nonneg {cfg : Config} {isc_a : ℝ} {s : LoopState}
    (hq0 : 0 ≤ cfg.q0_c) (hc : 0 ≤ cfg.c_f) (hr : 0 ≤ cfg.r_esr) (hisc : 0 ≤ isc_a)
    (h : Reaches cfg isc_a s) : 0 ≤ s.node_v := by
  induction h with
  | init hinit =>
    obtain ⟨hnv, _, _, _, _, _⟩ := initState_ok_fields hinit
    exact node_voltage_nonneg hq0 hc hisc hr hnv
  | step hrr hst ih =>
    obtain ⟨qt, p2, i1, d, hi1mem, _, hqt0, _, hnv, _, _, _, _, _⟩ := stepOnce_ok_fields hst
    have hi1 : 0 ≤ i1 := by
      rcases hi1mem with h1 | h1
      · rw [h1]; exact hisc
      · rw [h1]
    exact node_voltage_nonneg hqt0 hc hi1 hr hnv

end SimCap

namespace SimCap

/-! ### Shape of the time column -/

lemma mem_dropLast_or_last {l : List (ℝ × ℝ)} (hne : l ≠ []) {x : ℝ × ℝ} (hx : x ∈ l) :
    x ∈ l.dropLast ∨ x = l.getLastD (0, 0) := by
  have h1 := List.dropLast_append_getLast hne
  rw [← h1] at hx
  rcases List.mem_append.mp hx with h2 | h2
  · exact Or.inl h2
  · right
    rcases List.mem_singleton.mp h2 with rfl
    rw [List.getLastD_eq_getLast?, List.getLast?_eq_getLast l hne]
    rfl

lemma runLoop_time_shape {cfg : Config} {isc_a : ℝ} :
    ∀ (n : ℕ) (s : LoopState) (tr : List (ℝ × ℝ)) (m : ℕ),
      runLoop cfg isc_a n s = some (.ok tr) →
      s.log.length = m + 1 →
      s.log.map Prod.fst = 0 :: (List.range m).map (fun k : ℕ => (k : ℝ) * cfg.dt_s) →
      s.t_s = (m : ℝ) * cfg.dt_s →
      (∀ x ∈ s.log.dropLast, x.1 < cfg.dur_s) →
      ∃ m2 : ℕ, tr.length = m2 + 1 ∧
        tr.map Prod.fst = 0 :: (List.range m2).map (fun k : ℕ => (k : ℝ) * cfg.dt_s) ∧
        cfg.dur_s ≤ (tr.getLastD (0, 0)).1 ∧
        (∀ x ∈ tr.dropLast, x.1 < cfg.dur_s) := by
  intro n
  induction n with
  | zero =>
    intro s tr m h _ _ _ _
    rw [runLoop_zero] at h
    exact absurd h (by simp)
  | succ n ih =>
    intro s tr m h hlen hmap hts hdrop
    rw [runLoop_succ] at h
    by_cases hlt : lastTime s < cfg.dur_s
    · rw [if_pos hlt] at h
      cases hst : stepOnce cfg isc_a s with
      | error e => rw [hst] at h; exact absurd h (by simp)
      | ok u =>
        rw [hst] at h
        obtain ⟨qt, p2, i1, d, _, _, _, _, _, _, _, _, hu_ts, hu_log⟩ := stepOnce_ok_fields hst
        have hne : s.log ≠ [] := by
          intro h0
          rw [h0] at hlen
          simp at hlen
        refine ih u tr (m + 1) h ?_ ?_ ?_ ?_
        · rw [hu_log, List.length_append, hlen]
          simp
        · rw [hu_log, List.map_append, hmap, List.range_succ, List.map_append, hts]
          simp
        · rw [hu_ts, hts]
          push_cast
          ring
        · rw [hu_log, List.dropLast_concat]
          intro x hx
          rcases mem_dropLast_or_last hne hx with h1 | h1
          · exact hdrop x h1
          · rw [h1]
            exact hlt
    · rw [if_neg hlt] at h
      have htr : tr = s.log := by
        injection h with h2
        injection h2 with h3
        exact h3.symm
      subst htr
      exact ⟨m, hlen, hmap, not_lt.mp hlt, hdrop⟩

/-! ### Termination of the run loop -/

lemma runLoop_total {cfg : Config} {isc_a : ℝ} :
    ∀ (n : ℕ) (s : LoopState),
      s.t_s - cfg.dt_s ≤ lastTime s →
      cfg.dur_s ≤ s.t_s - cfg.dt_s + (n : ℝ) * cfg.dt_s →
      (runLoop cfg isc_a (n + 1) s).isSome := by
  intro n
  induction n with
  | zero =>
    intro s hinv hbound
    have hstop : ¬ lastTime s < cfg.dur_s := by
      push_neg
      have h0 : cfg.dur_s ≤ s.t_s - cfg.dt_s := by
        have := hbound
        push_cast at this
        linarith
      linarith
    rw [runLoop_stop hstop]
    rfl
  | succ n ih =>
    intro s hinv hbound
    by_cases hlt : lastTime s < cfg.dur_s
    · cases hst : stepOnce cfg isc_a s with
      | error e =>
        rw [runLoop_abort hlt hst]
        rfl
      | ok u =>
        rw [runLoop_go hlt hst]
        obtain ⟨qt, p2, i1, d, _, _, _, _, _, _, _, _, hu_ts, _⟩ := stepOnce_ok_fields hst
        have hu_last : lastTime u = s.t_s := lastTime_step hst
        apply ih u
        · rw [hu_ts, hu_last]
          linarith
        · rw [hu_ts]
          push_cast at hbound ⊢
          linarith
    · rw [runLoop_stop hlt]
      rfl

/-! ### The head of the trace is the initial sample -/

lemma runLoop_head {cfg : Config} {isc_a : ℝ} :
    ∀ (n : ℕ) (s : LoopState) (tr : List (ℝ × ℝ)),
      runLoop cfg isc_a n s = some (.ok tr) → s.log ≠ [] → tr.head? = s.log.head? := by
  intro n
  induction n with
  | zero =>
    intro s tr h _
    rw [runLoop_zero] at h
    exact absurd h (by simp)
  | succ n ih =>
    intro s tr h hne
    rw [runLoop_succ] at h
    by_cases hlt : lastTime s < cfg.dur_s
    · rw [if_pos hlt] at h
      cases hst : stepOnce cfg isc_a s with
      | error e => rw [hst] at h; exact absurd h (by simp)
      | ok u =>
        rw [hst] at h
        obtain ⟨qt, p2, i1, d, _, _, _, _, _, _, _, _, _, hu_log⟩ := stepOnce_ok_fields hst
        obtain ⟨a, l2, hcons⟩ := List.exists_cons_of_ne_nil hne
        have hu_ne : u.log ≠ [] := by
          rw [hu_log]
          simp
        have h2 := ih u tr h hu_ne
        rw [h2, hu_log, hcons]
        rfl
    · rw [if_neg hlt] at h
      have htr : tr = s.log := by
        injection h with h2
        injection h2 with h3
        exact h3.symm
      subst htr
      rfl

end SimCap

namespace SimCap

/-- Helper: `pyDiv` fails only on a zero divisor, and only with the
division-by-zero error. -/
lemma pyDiv_error {a b : ℝ} {e : SimError} (h : pyDiv a b = .error e) :
    b = 0 ∧ e = .divisionByZero := by
  unfold pyDiv at h
  by_cases hb : b = 0
  · rw [if_pos hb] at h
    injection h with h2
    exact ⟨hb, h2.symm⟩
  · rw [if_neg hb] at h
    exact absurd h (by simp)

/-- Helper: `node_voltage` fails only on a negative discriminant, and only
with the negative-sqrt error. -/
lemma node_voltage_error {q c i r d : ℝ} {e : SimError}
    (h : node_voltage q c i r d = .error e) : d < 0 ∧ e = .negativeSqrt := by
  unfold node_voltage at h
  by_cases hd : d < 0
  · rw [if_pos hd] at h
    injection h with h2
    exact ⟨hd, h2.symm⟩
  · rw [if_neg hd] at h
    exact absurd h (by simp)

/-- Helper: the only runtime error the loop body can raise is the division by
zero on line 104; the retried discriminant is never negative, so the `sqrt`
inside `node_voltage` cannot fail inside the loop. -/
lemma stepOnce_error_eq {cfg : Config} {isc_a : ℝ} {s : LoopState} {e : SimError}
    (h : stepOnce cfg isc_a s = .error e) : e = .divisionByZero := by
  unfold stepOnce at h
  split at h
  next e2 heq =>
    injection h with h3
    rw [← h3]
    exact (pyDiv_error heq).2
  next i3_a heq =>
    dsimp only at h
    split at h
    next e2 heq2 =>
      obtain ⟨hneg, _⟩ := node_voltage_error heq2
      exact absurd hneg (not_lt.mpr (recoverDiscr_snd_nonneg _ _ _ _ _))
    next v heq2 => exact absurd h (by simp)

/-! ### Claim theorems -/

/-- Claim C1, counterexample.  The claim says the negative-discriminant
recovery is applied identically at initialization and at every step, so the
discriminant passed to `sqrt` is never negative in any solve of the run.  In
scenario B (a valid configuration: `c_f = 1 > 0`, `dt_s = 1 > 0`,
`dur_s = 1 ≥ 0`) the discriminant of the initial solve (lines 92-93) is
`-3 < 0` and there is no recovery there: the run aborts with the error
`math.sqrt` raises on a negative argument, instead of retrying with the load
forced off. -/
theorem c1_initial_solve_negative_discriminant :
    node_discrim cfgB.q0_c cfgB.c_f 1 cfgB.r_esr cfgB.p_on_w < 0 ∧
    simulate cfgB 1 = some (.error .negativeSqrt) := by
  constructor
  · rw [cfgB_discr]; norm_num
  · exact cfgB_run

/-- Claim C1, amended: the negative-discriminant recovery is applied at every
loop step (lines 116-118), so the discriminant fed to `sqrt` in every in-loop
solve is never negative and the loop body can never fail on the square root;
at initialization (lines 92-93) no recovery is applied, and a negative
discriminant there aborts the run (see the counterexample). -/
theorem c1_loop_discriminant_never_negative :
    (∀ q c i r p : ℝ, 0 ≤ (recoverDiscr q c i r p).2) ∧
    (∀ (cfg : Config) (isc_a : ℝ) (s : LoopState),
      stepOnce cfg isc_a s ≠ .error .negativeSqrt) := by
  constructor
  · exact recoverDiscr_snd_nonneg
  · intro cfg isc_a s hcontra
    have h2 := stepOnce_error_eq hcontra
    exact absurd h2 (by simp)

/-- Claim C1, witness: the amended theorem evaluated at a concrete input. -/
theorem c1_loop_discriminant_never_negative_witness :
    0 ≤ (recoverDiscr 0 1 0 1 1).2 :=
  c1_loop_discriminant_never_negative.1 0 1 0 1 1

/-- Claim C2, counterexample.  The claim says the trace's time column is a
strictly increasing arithmetic sequence.  In scenario A (a valid
configuration) the trace is `[(0,5), (0,6), (1,7), (2,8)]`: the loop appends
the sample before advancing `t_s` (lines 128-129), so the first loop sample
repeats time 0 and the time column `[0, 0, 1, 2]` is not strictly
increasing. -/
theorem c2_time_column_not_strictly_increasing :
    simulate cfgA 4 = some (.ok [(0, 5), (0, 6), (1, 7), (2, 8)]) ∧
    ¬ List.Chain' (fun a b : ℝ => a < b)
        (List.map Prod.fst [((0 : ℝ), (5 : ℝ)), (0, 6), (1, 7), (2, 8)]) := by
  refine ⟨cfgA_run, ?_⟩
  intro hchain
  norm_num [List.chain'_cons] at hchain

/-- Claim C2, amended: for every configuration whose run completes normally,
the trace's time column is `0` followed by `0, dt_s, 2*dt_s, ...` (sample
`k ≥ 1` of the trace carries time `(k-1)*dt_s`, because each step appends the
sample before advancing `elapsedTime_s`); it ends at the first value
`≥ dur_s`, every earlier entry being `< dur_s`.  In particular the column is
an arithmetic sequence with difference `dt_s` only from the second entry on:
its first two entries are both 0. -/
theorem c2_time_column_shape (cfg : Config) (fuel : ℕ) (tr : List (ℝ × ℝ))
    (h : simulate cfg fuel = some (.ok tr)) :
    ∃ m : ℕ, tr.length = m + 1 ∧
      tr.map Prod.fst = 0 :: (List.range m).map (fun k : ℕ => (k : ℝ) * cfg.dt_s) ∧
      cfg.dur_s ≤ (tr.getLastD (0, 0)).1 ∧
      (∀ x ∈ tr.dropLast, x.1 < cfg.dur_s) := by
  obtain ⟨isc_a, s, hisc, hinit, hrun⟩ := simulate_ok_elim h
  obtain ⟨_, _, _, _, hts, hlog⟩ := initState_ok_fields hinit
  refine runLoop_time_shape fuel s tr 0 hrun ?_ ?_ ?_ ?_
  · rw [hlog]; rfl
  · rw [hlog]; simp
  · rw [hts]; simp
  · rw [hlog]
    intro x hx
    simp at hx

/-- Claim C2, witness: the amended theorem evaluated on the scenario A run. -/
theorem c2_time_column_shape_witness :
    ∃ m : ℕ, ([((0 : ℝ), (5 : ℝ)), (0, 6), (1, 7), (2, 8)] : List (ℝ × ℝ)).length = m + 1 ∧
      ([((0 : ℝ), (5 : ℝ)), (0, 6), (1, 7), (2, 8)] : List (ℝ × ℝ)).map Prod.fst
        = 0 :: (List.range m).map (fun k : ℕ => (k : ℝ) * cfgA.dt_s) ∧
      cfgA.dur_s ≤ (([((0 : ℝ), (5 : ℝ)), (0, 6), (1, 7), (2, 8)] : List (ℝ × ℝ)).getLastD (0, 0)).1 ∧
      (∀ x ∈ ([((0 : ℝ), (5 : ℝ)), (0, 6), (1, 7), (2, 8)] : List (ℝ × ℝ)).dropLast,
        x.1 < cfgA.dur_s) :=
  c2_time_column_shape cfgA 4 _ cfgA_run

/-- Claim C3, counterexample.  The claim says that whenever a step executes,
the node voltage used as divisor on line 104 is strictly positive, so the
division never divides by zero.  Scenario C is a valid configuration
(`c_f = 1 > 0`, `dt_s = 20 > 0`, `dur_s = 10 ≥ 0`, `eff = 0 ∈ [0,1]`) whose
first loop iteration clamps the charge to 0 and solves to node voltage 0;
the second iteration then executes `p_mode_w / node_v` with `node_v = 0` and
the run aborts with a division by zero. -/
theorem c3_division_by_zero_in_step :
    0 < cfgC.c_f ∧ 0 < cfgC.dt_s ∧ 0 ≤ cfgC.dur_s ∧
    simulate cfgC 2 = some (.error .divisionByZero) :=
  ⟨by norm_num [cfgC], by norm_num [cfgC], by norm_num [cfgC], cfgC_run⟩

/-- Claim C3, amended: for every valid configuration (nonnegative array area,
efficiency, open-circuit voltage, capacitance, ESR and initial charge),
whenever a step executes, the node voltage used as divisor is nonnegative —
but it is not guaranteed strictly positive: it can be exactly zero, in which
case the division raises a division-by-zero error (see the
counterexample). -/
theorem c3_node_voltage_nonneg (cfg : Config) (s : LoopState)
    (hsa : 0 ≤ cfg.sa_m2) (heff : 0 ≤ cfg.eff) (hvoc : 0 ≤ cfg.voc)
    (hc : 0 ≤ cfg.c_f) (hr : 0 ≤ cfg.r_esr) (hq0 : 0 ≤ cfg.q0_c)
    (h : Reaches cfg (iscVal cfg) s) : 0 ≤ s.node_v :=
  reaches_node_v_nonneg hq0 hc hr (iscVal_nonneg hsa heff hvoc) h

/-- Claim C3, witness: the amended theorem evaluated at scenario E after
initialization. -/
theorem c3_node_voltage_nonneg_witness : 0 ≤ sE0.node_v :=
  c3_node_voltage_nonneg cfgE sE0 (by norm_num [cfgE]) (by norm_num [cfgE])
    (by norm_num [cfgE]) (by norm_num [cfgE]) (by norm_num [cfgE]) (by norm_num [cfgE])
    (Reaches.init (by rw [cfgE_iscVal]; exact cfgE_init))

/-- Claim C4: immediately after the mode-switch rules run (at initialization,
lines 96-100, and at the end of every step, lines 122-126), the source
current is zero whenever the node voltage is at or above `voc`, and the load
power is zero whenever the node voltage is below `v_thresh`; moreover,
throughout the run the source current is either the short-circuit value or
zero, and the load power is either the configured `p_on_w` or zero. -/
theorem c4_mode_switch_invariants (cfg : Config) (isc_a : ℝ) (s : LoopState)
    (h : Reaches cfg isc_a s) :
    (cfg.voc ≤ s.node_v → s.i1_a = 0) ∧
    (s.node_v < cfg.v_thresh → s.p_mode_w = 0) ∧
    (s.i1_a = isc_a ∨ s.i1_a = 0) ∧
    (s.p_mode_w = cfg.p_on_w ∨ s.p_mode_w = 0) :=
  reaches_invariants h

/-- Claim C4, witness: the theorem evaluated at scenario E after
initialization. -/
theorem c4_mode_switch_invariants_witness :
    (cfgE.voc ≤ sE0.node_v → sE0.i1_a = 0) ∧
    (sE0.node_v < cfgE.v_thresh → sE0.p_mode_w = 0) ∧
    (sE0.i1_a = 1 ∨ sE0.i1_a = 0) ∧
    (sE0.p_mode_w = cfgE.p_on_w ∨ sE0.p_mode_w = 0) :=
  c4_mode_switch_invariants cfgE 1 sE0 (Reaches.init cfgE_init)

/-- Claim C5: for every configuration with nonnegative initial charge, the
capacitor charge is never negative in any state the run reaches — a step
that drives the charge below zero clamps it back to exactly zero
(lines 107-108) before the charge is next used. -/
theorem c5_charge_never_negative (cfg : Config) (isc_a : ℝ) (s : LoopState)
    (hq0 : 0 ≤ cfg.q0_c) (h : Reaches cfg isc_a s) : 0 ≤ s.qt_c :=
  reaches_charge_nonneg hq0 h

/-- Claim C5, witness: the theorem evaluated at scenario E after
initialization. -/
theorem c5_charge_never_negative_witness : 0 ≤ sE0.qt_c :=
  c5_charge_never_negative cfgE 1 sE0 (by norm_num [cfgE]) (Reaches.init cfgE_init)

/-- Claim C6: if the open-circuit voltage is zero, the run fails with a
division-by-zero error already in the short-circuit source-current
computation (line 85, calling `solar_current`), before any sample is
recorded; the result of the run is the error, not a trace. -/
theorem c6_voc_zero_division_by_zero (cfg : Config) (fuel : ℕ) (hvoc : cfg.voc = 0) :
    simulate cfg fuel = some (.error .divisionByZero) := by
  unfold simulate
  rw [solar_current, if_pos hvoc]

/-- Claim C6, witness: the theorem evaluated at scenario F with fuel 0 (the
failure happens at construction, so no loop fuel is needed). -/
theorem c6_voc_zero_division_by_zero_witness :
    simulate cfgF 0 = some (.error .divisionByZero) :=
  c6_voc_zero_division_by_zero cfgF 0 (by norm_num [cfgF])

/-- Claim C7: for every valid configuration with zero initial charge and zero
load power, the node voltage recorded at time 0 (the head of the trace of
any completed run) equals the short-circuit current times the ESR: the
discriminant reduces to the perfect square `(isc_a * r_esr)^2`. -/
theorem c7_initial_voltage (cfg : Config) (fuel : ℕ) (tr : List (ℝ × ℝ))
    (hq0 : cfg.q0_c = 0) (hp : cfg.p_on_w = 0)
    (hsa : 0 ≤ cfg.sa_m2) (heff : 0 ≤ cfg.eff) (hvoc : 0 < cfg.voc) (hr : 0 ≤ cfg.r_esr)
    (h : simulate cfg fuel = some (.ok tr)) :
    tr.head? = some (0, iscVal cfg * cfg.r_esr) := by
  obtain ⟨isc_a, s, hisc, hinit, hrun⟩ := simulate_ok_elim h
  have hisc2 : isc_a = iscVal cfg := by
    rw [solar_current, if_neg (ne_of_gt hvoc)] at hisc
    injection hisc with h2
    exact h2.symm
  have hiscn : 0 ≤ isc_a := by
    rw [hisc2]
    exact iscVal_nonneg hsa heff (le_of_lt hvoc)
  obtain ⟨hnv, _, _, _, _, hlog⟩ := initState_ok_fields hinit
  have hd : node_discrim cfg.q0_c cfg.c_f isc_a cfg.r_esr cfg.p_on_w
      = (isc_a * cfg.r_esr) ^ 2 := by
    rw [hq0, hp]
    unfold node_discrim
    rw [zero_div]
    ring
  have hv : s.node_v = isc_a * cfg.r_esr := by
    rw [hd] at hnv
    obtain ⟨_, hveq⟩ := node_voltage_ok_iff.mp hnv
    rw [← hveq, hq0, Real.sqrt_sq (mul_nonneg hiscn hr), zero_div]
    ring
  have hhead := runLoop_head fuel s tr hrun (by rw [hlog]; simp)
  rw [hhead, hlog, hv, hisc2]
  rfl

/-- Claim C7, witness: the theorem evaluated on the scenario E run, whose
trace is the single sample `(0, 1)` with `iscVal cfgE * cfgE.r_esr = 1`. -/
theorem c7_initial_voltage_witness :
    ([((0 : ℝ), (1 : ℝ))] : List (ℝ × ℝ)).head? = some (0, iscVal cfgE * cfgE.r_esr) :=
  c7_initial_voltage cfgE 1 [(0, 1)] (by norm_num [cfgE]) (by norm_num [cfgE])
    (by norm_num [cfgE]) (by norm_num [cfgE]) (by norm_num [cfgE]) (by norm_num [cfgE])
    cfgE_run

/-- Claim C8, counterexample.  The claim says every configuration with
positive time step and nonnegative duration terminates producing a finite
trace.  Scenario D has `dt_s = 20 > 0` and `dur_s = 15 ≥ 0`, yet the run
terminates by raising a division-by-zero error and produces no trace at
all. -/
theorem c8_valid_config_aborts_without_trace :
    0 < cfgD.dt_s ∧ 0 ≤ cfgD.dur_s ∧
    simulate cfgD 2 = some (.error .divisionByZero) :=
  ⟨by norm_num [cfgD], by norm_num [cfgD], cfgD_run⟩

/-- Claim C8, amended: for every configuration with positive time step and
nonnegative duration the run loop terminates — there is a fuel bound at
which the run has finished, yielding either the finite trace or an aborting
error; the loop cannot run forever.  (Termination holds because the last
recorded time increases by `dt_s` each iteration and the loop stops as soon
as it reaches `dur_s`.) -/
theorem c8_run_loop_terminates (cfg : Config) (hdt : 0 < cfg.dt_s) (_hdur : 0 ≤ cfg.dur_s) :
    ∃ fuel : ℕ, (simulate cfg fuel).isSome := by
  cases hsc : solar_current irr_w_m2 cfg.sa_m2 cfg.eff cfg.voc with
  | error e =>
    refine ⟨0, ?_⟩
    unfold simulate
    rw [hsc]
    rfl
  | ok isc_a =>
    cases hin : initState cfg isc_a with
    | error e =>
      refine ⟨0, ?_⟩
      unfold simulate
      rw [hsc]
      dsimp only
      rw [hin]
      rfl
    | ok s =>
      obtain ⟨n, hn⟩ := Archimedean.arch (cfg.dur_s + cfg.dt_s) hdt
      rw [nsmul_eq_mul] at hn
      refine ⟨n + 1, ?_⟩
      rw [simulate_eq_runLoop hsc hin]
      obtain ⟨_, _, _, _, hts, hlog⟩ := initState_ok_fields hin
      have hl : lastTime s = 0 := by
        rw [lastTime, hlog]
        rfl
      apply runLoop_total n s
      · rw [hts, hl]
        linarith
      · rw [hts]
        linarith

/-- Claim C8, witness: the amended theorem evaluated at scenario E. -/
theorem c8_run_loop_terminates_witness : ∃ fuel : ℕ, (simulate cfgE fuel).isSome :=
  c8_run_loop_terminates cfgE (by norm_num [cfgE]) (by norm_num [cfgE])

/-- Claim C9, counterexample.  The claim says a wrong number of command-line
arguments leads to a usage message and a non-zero exit code.  With
`len(sys.argv) = 1` (no arguments) the script prints the usage message and
calls `sys.exit()` with no argument, which exits the process with status 0 —
not a non-zero code. -/
theorem c9_wrong_arity_exit_code_zero :
    mainDispatch 1 = MainBehavior.usageExit usageMessage 0 := by
  rw [mainDispatch, if_neg (by norm_num)]

/-- Claim C9, amended: when the number of command-line tokens differs from 11
(script name plus the required ten parameters), the script prints the usage
message and exits without running the simulation — but with exit code 0,
because `sys.exit()` is called with no argument. -/
theorem c9_wrong_arity_usage_exit (argc : ℕ) (h : argc ≠ 11) :
    mainDispatch argc = MainBehavior.usageExit usageMessage 0 := by
  rw [mainDispatch, if_neg h]

/-- Claim C9, witness: the amended theorem evaluated at arity 3. -/
theorem c9_wrong_arity_usage_exit_witness :
    mainDispatch 3 = MainBehavior.usageExit usageMessage 0 :=
  c9_wrong_arity_usage_exit 3 (by norm_num)

/-- Claim C10: at initialization the time-0 sample is appended to the trace
(line 94) before the source-disconnect and load-cutoff rules run
(lines 96-100).  Hence the initial log is exactly `[(0, node_v)]` where
`node_v` is the solve computed from the full short-circuit current and the
configured load power, and the initial log does not depend on `voc` or
`v_thresh` at all — even when the initial voltage is below `v_thresh` or at
or above `voc`, the rules only change the state used by subsequent steps,
never the recorded sample. -/
theorem c10_init_sample_before_rules (cfg cfg2 : Config) (isc_a : ℝ) (s s2 : LoopState)
    (hq : cfg2.q0_c = cfg.q0_c) (hc : cfg2.c_f = cfg.c_f) (hr : cfg2.r_esr = cfg.r_esr)
    (hp : cfg2.p_on_w = cfg.p_on_w)
    (h1 : initState cfg isc_a = .ok s) (h2 : initState cfg2 isc_a = .ok s2) :
    s.log = [(0, s.node_v)] ∧ s2.log = s.log ∧
    node_voltage cfg.q0_c cfg.c_f isc_a cfg.r_esr
      (node_discrim cfg.q0_c cfg.c_f isc_a cfg.r_esr cfg.p_on_w) = .ok s.node_v := by
  obtain ⟨hnv1, _, _, _, _, hlog1⟩ := initState_ok_fields h1
  obtain ⟨hnv2, _, _, _, _, hlog2⟩ := initState_ok_fields h2
  rw [hq, hc, hr, hp] at hnv2
  have hvv : s2.node_v = s.node_v := by
    rw [hnv1] at hnv2
    injection hnv2 with h3
    exact h3.symm
  refine ⟨hlog1, ?_, hnv1⟩
  rw [hlog2, hlog1, hvv]

/-- Claim C10, witness: the theorem evaluated at scenarios E and E2 — the
latter moves both rule thresholds so that both rules fire at initialization
(the source is disconnected and the load is cut off), yet the recorded
time-0 sample is the same `(0, 1)`. -/
theorem c10_init_sample_before_rules_witness :
    sE0.log = [(0, sE0.node_v)] ∧ sE2.log = sE0.log ∧
    node_voltage cfgE.q0_c cfgE.c_f 1 cfgE.r_esr
      (node_discrim cfgE.q0_c cfgE.c_f 1 cfgE.r_esr cfgE.p_on_w) = .ok sE0.node_v :=
  c10_init_sample_before_rules cfgE cfgE2 1 sE0 sE2 (by norm_num [cfgE, cfgE2])
    (by norm_num [cfgE, cfgE2]) (by norm_num [cfgE, cfgE2]) (by norm_num [cfgE, cfgE2])
    cfgE_init cfgE2_init

end SimCap
